import Mathlib

/-!
Verification of the movie-watchlist backend (src/api/app.py).

The program is a Flask service over a single SQL table `movies`:

  movies = Table("movies", metadata,
    Column("id", Integer, primary_key=True, autoincrement=True),
    Column("title", String(200), nullable=False),
    Column("genre", String(100)),
    Column("status", Boolean, default=False),
    Column("image_url", String(500)))

We embed the table state and the four request handlers (list_movies,
add_movie, mark_watched, delete_movie) plus the module-level seed block
as pure functions on an explicit database state.
-/

/-- One row of the `movies` table.  Column types follow the schema:
`genre` and `image_url` are nullable, hence `Option`; `title` is declared
`nullable=False`, but we keep the SQL column type (`Option String`) and
enforce the NOT NULL constraint in the insert operation, exactly where
the database enforces it. -/
structure MovieRow where
  id : Nat
  title : Option String
  genre : Option String
  status : Bool
  image_url : Option String
deriving DecidableEq

/-- The database state: the rows of the `movies` table together with the
next value of the `id` autoincrement sequence. -/
structure DB where
  rows : List MovieRow
  nextId : Nat
deriving DecidableEq

/-- The state of a freshly created `movies` table (`metadata.create_all`):
no rows, autoincrement sequence at 1. -/
def initialDB : DB := ⟨[], 1⟩

/-- Whether an optional string value fits a VARCHAR(n) column: a SQL
null always fits; a string fits when its character count is at most n
(Postgres counts characters for varchar lengths). -/
def fitsVarchar (n : Nat) : Option String → Bool
  | none => true
  | some v => decide (v.length ≤ n)

/-- A single-row insert into the `movies` table.  The database assigns
the next autoincrement `id` and enforces the column constraints of the
schema: NOT NULL on `title` (`Column("title", String(200),
nullable=False)`) and the varchar length bounds `String(200)` on title,
`String(100)` on genre and `String(500)` on image_url.  An insert that
violates any of them fails (returns `none`, the transaction is rolled
back).  On success it returns the inserted primary key and the new
state. -/
def dbInsert (s : DB) (title genre : Option String) (status : Bool)
    (image_url : Option String) : Option (Nat × DB) :=
  match title with
  | none => none
  | some t =>
    if fitsVarchar 200 (some t) && fitsVarchar 100 genre &&
        fitsVarchar 500 image_url then
      some (s.nextId,
        ⟨s.rows ++ [⟨s.nextId, some t, genre, status, image_url⟩], s.nextId + 1⟩)
    else none

/-- Row data for the executemany insert of the seed block. -/
structure SeedRow where
  title : Option String
  genre : Option String
  status : Bool
  image_url : Option String
deriving DecidableEq

/-- `conn.execute(movies.insert(), nolan_movies)`: insert a list of rows;
each row receives the next autoincrement id in order.  Fails (rolling the
whole transaction back) if any row violates the NOT NULL constraint. -/
def dbInsertMany (s : DB) (rs : List SeedRow) : Option DB :=
  match rs with
  | [] => some s
  | r :: rest =>
    match dbInsert s r.title r.genre r.status r.image_url with
    | none => none
    | some (_, s') => dbInsertMany s' rest

/-- The `nolan_movies` seed list from the module-level block of app.py. -/
def nolan_movies : List SeedRow :=
  [ ⟨some "Inception", some "Sci-Fi", false,
      some "https://images.unsplash.com/photo-1524985069026-dd778a71c7b4"⟩,
    ⟨some "Interstellar", some "Sci-Fi", false,
      some "https://images.unsplash.com/photo-1462331940025-496dfbfc7564"⟩,
    ⟨some "The Dark Knight", some "Action", false,
      some "https://images.unsplash.com/photo-1517602302552-471fe67acf66"⟩,
    ⟨some "Tenet", some "Sci-Fi/Action", false,
      some "https://images.unsplash.com/photo-1522120692562-5d7a83e9f50a"⟩ ]

/-- The module-level seed block of app.py: after `metadata.create_all`,
select from `movies`; if the table has no first row, insert the four
`nolan_movies`.  `none` models a fatal startup failure. -/
def seed_block (s : DB) : Option DB :=
  if s.rows.isEmpty then dbInsertMany s nolan_movies else some s

/-- HTTP responses the handlers can produce, paired with their status
codes by `Resp.code`. -/
inductive Resp where
  /-- 200, the JSON array of all rows (GET /movies). -/
  | listOk (rows : List MovieRow)
  /-- 201, `{"id": id}` (POST /movies). -/
  | created (id : Nat)
  /-- 200, `{"status": "updated"}` (PUT /movies/id). -/
  | updated
  /-- 200, `{"deleted": id}` (DELETE /movies/id). -/
  | deleted (id : Nat)
  /-- 404, `{"error": "not found"}`. -/
  | notFound
  /-- 500: an unhandled exception (e.g. an IntegrityError from the
  database) propagates out of the handler and Flask answers with an
  internal server error. -/
  | serverError
deriving DecidableEq

/-- The HTTP status code of each response. -/
def Resp.code : Resp → Nat
  | .listOk _ => 200
  | .created _ => 201
  | .updated => 200
  | .deleted _ => 200
  | .notFound => 404
  | .serverError => 500

/-- The JSON body of a POST /movies request: `data.get` of each key, all
optional.  `status` may be supplied by the caller but the handler never
reads it. -/
structure AddReq where
  title : Option String
  genre : Option String
  status : Option Bool
  image_url : Option String
deriving DecidableEq

/-- Handler for GET /movies: `movies.select()` of all rows, serialized;
the state is returned unchanged since only a select is executed. -/
def list_movies (s : DB) : Resp × DB :=
  (.listOk s.rows, s)

/-- Handler for POST /movies: insert with `title=data.get("title")`,
`genre=data.get("genre")`, `status=False` (forced), and
`image_url=data.get("image_url")`; on success answer 201 with the
inserted primary key.  An insert that violates a constraint (null
title or an over-long value) raises, so the response is a 500 and the
transaction leaves the table unchanged. -/
def add_movie (req : AddReq) (s : DB) : Resp × DB :=
  match dbInsert s req.title req.genre false req.image_url with
  | none => (.serverError, s)
  | some (pk, s') => (.created pk, s')

/-- Handler for PUT /movies/movie_id:
`movies.update().where(movies.c.id == movie_id).values(status=True)`,
then answer by the rowcount: `{"status": "updated"}` if any row matched,
otherwise 404 `{"error": "not found"}`. -/
def mark_watched (movie_id : Nat) (s : DB) : Resp × DB :=
  let rowcount := (s.rows.filter (fun r => r.id == movie_id)).length
  ((if rowcount ≠ 0 then .updated else .notFound),
   ⟨s.rows.map (fun r => if r.id == movie_id then { r with status := true } else r),
    s.nextId⟩)

/-- Handler for DELETE /movies/movie_id:
`movies.delete().where(movies.c.id == movie_id)`, then answer by the
rowcount: `{"deleted": movie_id}` if any row matched, otherwise 404. -/
def delete_movie (movie_id : Nat) (s : DB) : Resp × DB :=
  let rowcount := (s.rows.filter (fun r => r.id == movie_id)).length
  ((if rowcount ≠ 0 then .deleted movie_id else .notFound),
   ⟨s.rows.filter (fun r => r.id != movie_id), s.nextId⟩)

/-- One API operation, for quantifying over the whole interface. -/
inductive Op where
  | list
  | add (req : AddReq)
  | put (movie_id : Nat)
  | del (movie_id : Nat)
deriving DecidableEq

/-- Dispatch an operation to its handler. -/
def applyOp (op : Op) (s : DB) : Resp × DB :=
  match op with
  | .list => list_movies s
  | .add req => add_movie req s
  | .put i => mark_watched i s
  | .del i => delete_movie i s

/-- States reachable by the process: the seed block runs against the
store at every process start (first on the freshly created table), and
then any sequence of API operations runs. -/
inductive Reachable : DB → Prop where
  | init : ∀ s, seed_block initialDB = some s → Reachable s
  | seed : ∀ s s', Reachable s → seed_block s = some s' → Reachable s'
  | step : ∀ s op, Reachable s → Reachable (applyOp op s).2

/-- The table invariant: every row id is below the autoincrement
sequence value, and row ids are pairwise distinct. -/
def TableInv (s : DB) : Prop :=
  (∀ r ∈ s.rows, r.id < s.nextId) ∧ (s.rows.map MovieRow.id).Nodup

/-- The state produced by the seed block on an empty table whose
autoincrement sequence stands at `n`. -/
def seededAt (n : Nat) : DB :=
  ⟨[ ⟨n, some "Inception", some "Sci-Fi", false,
       some "https://images.unsplash.com/photo-1524985069026-dd778a71c7b4"⟩,
     ⟨n+1, some "Interstellar", some "Sci-Fi", false,
       some "https://images.unsplash.com/photo-1462331940025-496dfbfc7564"⟩,
     ⟨n+1+1, some "The Dark Knight", some "Action", false,
       some "https://images.unsplash.com/photo-1517602302552-471fe67acf66"⟩,
     ⟨n+1+1+1, some "Tenet", some "Sci-Fi/Action", false,
       some "https://images.unsplash.com/photo-1522120692562-5d7a83e9f50a"⟩ ],
   n+1+1+1+1⟩

/-- The state the process serves requests from after its first start:
the fresh table, seeded. -/
def dbSeeded : DB := seededAt 1

/-- The seeded state after `PUT /movies/1` marked "Inception" watched. -/
def dbW : DB := (applyOp (.put 1) dbSeeded).2

/-- The "Inception" seed row as it sits in `dbSeeded`. -/
def rowInception : MovieRow :=
  ⟨1, some "Inception", some "Sci-Fi", false,
    some "https://images.unsplash.com/photo-1524985069026-dd778a71c7b4"⟩

/-- The "Inception" row after it was marked watched. -/
def rowInceptionW : MovieRow :=
  ⟨1, some "Inception", some "Sci-Fi", true,
    some "https://images.unsplash.com/photo-1524985069026-dd778a71c7b4"⟩

lemma seed_block_empty (n : Nat) : seed_block ⟨[], n⟩ = some (seededAt n) := rfl

lemma tableInv_append {s : DB} (h : TableInv s) (t g : Option String)
    (st : Bool) (u : Option String) :
    TableInv ⟨s.rows ++ [⟨s.nextId, t, g, st, u⟩], s.nextId + 1⟩ := by
  constructor
  · intro r hr
    rcases List.mem_append.1 hr with hm | hm
    · exact Nat.lt_succ_of_lt (h.1 r hm)
    · simp only [List.mem_singleton] at hm
      subst hm
      exact Nat.lt_succ_self _
  · simp only [List.map_append, List.map_cons, List.map_nil]
    refine List.Nodup.append h.2 (List.nodup_singleton _) ?_
    intro a ha hb
    simp only [List.mem_singleton] at hb
    subst hb
    obtain ⟨r, hr, hid⟩ := List.mem_map.1 ha
    exact absurd hid (Nat.ne_of_lt (h.1 r hr))

lemma dbInsert_some {s : DB} {t g u : Option String} {st : Bool} {p : Nat × DB}
    (he : dbInsert s t g st u = some p) :
    p = (s.nextId, ⟨s.rows ++ [⟨s.nextId, t, g, st, u⟩], s.nextId + 1⟩) := by
  cases t with
  | none => cases he
  | some t' =>
    simp only [dbInsert] at he
    by_cases hc : (fitsVarchar 200 (some t') && fitsVarchar 100 g &&
        fitsVarchar 500 u) = true
    · rw [if_pos hc] at he
      exact (Option.some.inj he).symm
    · rw [if_neg hc] at he
      cases he

lemma dbInsert_inv {s : DB} {t g u : Option String} {st : Bool} {p : Nat × DB}
    (h : TableInv s) (he : dbInsert s t g st u = some p) : TableInv p.2 := by
  rw [dbInsert_some he]
  exact tableInv_append h _ _ _ _

lemma dbInsertMany_inv {s s' : DB} (rs : List SeedRow)
    (h : TableInv s) (he : dbInsertMany s rs = some s') : TableInv s' := by
  induction rs generalizing s with
  | nil =>
    unfold dbInsertMany at he
    exact (Option.some.inj he) ▸ h
  | cons r rest ih =>
    unfold dbInsertMany at he
    cases ht : dbInsert s r.title r.genre r.status r.image_url with
    | none => rw [ht] at he; cases he
    | some p => rw [ht] at he; exact ih (dbInsert_inv h ht) he

lemma seed_block_inv {s s' : DB} (h : TableInv s)
    (hs : seed_block s = some s') : TableInv s' := by
  unfold seed_block at hs
  split at hs
  · exact dbInsertMany_inv _ h hs
  · exact (Option.some.inj hs) ▸ h

lemma tableInv_initial : TableInv initialDB := by
  constructor
  · intro r hr; cases hr
  · exact List.nodup_nil

lemma add_movie_inv {s : DB} (req : AddReq) (h : TableInv s) :
    TableInv (add_movie req s).2 := by
  unfold add_movie
  cases ht : dbInsert s req.title req.genre false req.image_url with
  | none => exact h
  | some p =>
    obtain ⟨pk, s'⟩ := p
    exact dbInsert_inv h ht

lemma mark_watched_id (movie_id : Nat) (r : MovieRow) :
    (if r.id == movie_id then { r with status := true } else r).id = r.id := by
  split <;> rfl

lemma mark_watched_inv {s : DB} (movie_id : Nat) (h : TableInv s) :
    TableInv (mark_watched movie_id s).2 := by
  constructor
  · intro r hr
    obtain ⟨r0, hr0, hmap⟩ := List.mem_map.1 hr
    have : r.id = r0.id := by rw [← hmap]; exact mark_watched_id movie_id r0
    rw [this]
    exact h.1 r0 hr0
  · show ((s.rows.map _).map MovieRow.id).Nodup
    rw [List.map_map]
    have : (MovieRow.id ∘ fun r =>
        if r.id == movie_id then { r with status := true } else r) =
        MovieRow.id := by
      funext r
      exact mark_watched_id movie_id r
    rw [this]
    exact h.2

lemma delete_movie_inv {s : DB} (movie_id : Nat) (h : TableInv s) :
    TableInv (delete_movie movie_id s).2 := by
  constructor
  · intro r hr
    exact h.1 r (List.mem_of_mem_filter hr)
  · exact ((s.rows.filter_sublist).map MovieRow.id).nodup h.2

lemma applyOp_inv {s : DB} (op : Op) (h : TableInv s) :
    TableInv (applyOp op s).2 := by
  cases op with
  | list => exact h
  | add req => exact add_movie_inv req h
  | put i => exact mark_watched_inv i h
  | del i => exact delete_movie_inv i h

lemma reachable_inv {s : DB} (h : Reachable s) : TableInv s := by
  induction h with
  | init s hs => exact seed_block_inv tableInv_initial hs
  | seed s s' _ hs ih => exact seed_block_inv ih hs
  | step s op _ ih => exact applyOp_inv op ih

lemma id_injective {s : DB} (h : TableInv s) {r r' : MovieRow}
    (hr : r ∈ s.rows) (hr' : r' ∈ s.rows) (hid : r.id = r'.id) : r = r' :=
  List.inj_on_of_nodup_map h.2 hr hr' hid

lemma reachable_dbSeeded : Reachable dbSeeded :=
  Reachable.init dbSeeded rfl

lemma reachable_dbW : Reachable dbW :=
  Reachable.step dbSeeded (.put 1) reachable_dbSeeded

lemma rowcount_pos {s : DB} {m : Nat} (r : MovieRow)
    (hr : r ∈ s.rows) (hid : r.id = m) :
    (s.rows.filter (fun x => x.id == m)).length ≠ 0 := by
  have hmem : r ∈ s.rows.filter (fun x => x.id == m) :=
    List.mem_filter.2 ⟨hr, by simp [hid]⟩
  intro h0
  rw [List.length_eq_zero] at h0
  rw [h0] at hmem
  cases hmem

lemma rowcount_zero {s : DB} {m : Nat} (h : ∀ r ∈ s.rows, r.id ≠ m) :
    (s.rows.filter (fun x => x.id == m)).length = 0 := by
  rw [List.length_eq_zero, List.filter_eq_nil_iff]
  intro a ha
  simp [h a ha]

lemma map_id_of_mem {α : Type} {l : List α} {f : α → α}
    (h : ∀ a ∈ l, f a = a) : l.map f = l := by
  induction l with
  | nil => rfl
  | cons a t ih =>
    simp only [List.map_cons]
    rw [h a (List.mem_cons_self a t), ih (fun b hb => h b (List.mem_cons_of_mem a hb))]

/-- C10: list-movies is read-only: for every state of the movies table,
executing the list operation returns the table's rows and leaves the
table exactly unchanged (it executes only a select). -/
theorem list_movies_readonly (s : DB) :
    (list_movies s).2 = s ∧ (list_movies s).1 = .listOk s.rows :=
  ⟨rfl, rfl⟩

/-- C1 counterexample: an add-movie request whose body omits `title`
does NOT succeed with 201 and a stored null title: against the seeded
table it yields the 500 server error (the NOT NULL constraint on
`title` rejects the insert) and the table is unchanged, so no row with
a null title is stored. -/
theorem add_missing_title_counterexample :
    add_movie ⟨none, some "War", none, none⟩ dbSeeded = (.serverError, dbSeeded) ∧
    (add_movie ⟨none, some "War", none, none⟩ dbSeeded).1.code = 500 ∧
    (∀ i : Nat, (add_movie ⟨none, some "War", none, none⟩ dbSeeded).1 ≠ .created i) ∧
    ∀ r ∈ (add_movie ⟨none, some "War", none, none⟩ dbSeeded).2.rows,
      r.title ≠ none := by
  refine ⟨rfl, rfl, ?_, ?_⟩
  · intro i h
    cases h
  · intro r hr
    have hm : r ∈ dbSeeded.rows := hr
    simp only [dbSeeded, seededAt, List.mem_cons, List.not_mem_nil, or_false] at hm
    rcases hm with rfl | rfl | rfl | rfl <;> decide

/-- C1 amended: for every add-movie request whose body omits `title`,
the handler itself performs no validation on title presence and attempts
the insert with a null title, but the insert fails on the NOT NULL
constraint of the `title` column: the response is the 500 server error,
not a 201, and the table is left unchanged (no row with a null title is
stored). -/
theorem add_missing_title_fails (s : DB) (req : AddReq) (h : req.title = none) :
    add_movie req s = (.serverError, s) := by
  unfold add_movie dbInsert
  rw [h]

/-- Witness for `add_missing_title_fails` at a concrete request. -/
theorem add_missing_title_fails_witness :
    (⟨none, some "War", none, none⟩ : AddReq).title = none ∧
    add_movie ⟨none, some "War", none, none⟩ dbSeeded = (.serverError, dbSeeded) :=
  ⟨rfl, add_missing_title_fails dbSeeded ⟨none, some "War", none, none⟩ rfl⟩

/-- C2: running the seed block against an empty movies table inserts
exactly the four seed movies titled "Inception", "Interstellar",
"The Dark Knight", "Tenet", each with status=false, and running it again
against the now-nonempty table returns the same state (inserts no
rows). -/
theorem seed_block_spec (s : DB) (h : s.rows = []) :
    ∃ s', seed_block s = some s' ∧
      s'.rows.map MovieRow.title =
        [some "Inception", some "Interstellar", some "The Dark Knight", some "Tenet"] ∧
      (∀ r ∈ s'.rows, r.status = false) ∧
      seed_block s' = some s' := by
  obtain ⟨rows, n⟩ := s
  cases h
  refine ⟨seededAt n, seed_block_empty n, rfl, ?_, rfl⟩
  intro r hr
  simp only [seededAt, List.mem_cons, List.not_mem_nil, or_false] at hr
  rcases hr with rfl | rfl | rfl | rfl <;> rfl

/-- Witness for `seed_block_spec` at the freshly created table. -/
theorem seed_block_spec_witness :
    initialDB.rows = [] ∧
    ∃ s', seed_block initialDB = some s' ∧
      s'.rows.map MovieRow.title =
        [some "Inception", some "Interstellar", some "The Dark Knight", some "Tenet"] ∧
      (∀ r ∈ s'.rows, r.status = false) ∧
      seed_block s' = some s' :=
  ⟨rfl, seed_block_spec initialDB rfl⟩

/-- C3: for every add-movie request that creates a row (title present
and every supplied value within its column's varchar bound, so the
insert passes the schema's constraints; any caller-supplied `status`
value is ignored by the handler, which forces `status=False`), the add
succeeds with 201, the newly created row has status=false, and a
subsequent list shows the new movie exactly once with status=false. -/
theorem add_movie_forces_status_false (s : DB) (req : AddReq) (t : String)
    (hs : Reachable s) (ht : req.title = some t) (hlen : t.length ≤ 200)
    (hg : fitsVarchar 100 req.genre = true)
    (hu : fitsVarchar 500 req.image_url = true) :
    ∃ i s', add_movie req s = (.created i, s') ∧
      (list_movies s').1 = .listOk s'.rows ∧
      (s'.rows.filter (fun r => r.id == i)).length = 1 ∧
      ∀ r ∈ s'.rows, r.id = i → r.status = false := by
  have hinv := reachable_inv hs
  have h200 : fitsVarchar 200 (some t) = true := by
    simp [fitsVarchar, hlen]
  have hcond : (fitsVarchar 200 (some t) && fitsVarchar 100 req.genre &&
      fitsVarchar 500 req.image_url) = true := by
    rw [h200, hg, hu]
    rfl
  refine ⟨s.nextId,
    ⟨s.rows ++ [⟨s.nextId, some t, req.genre, false, req.image_url⟩], s.nextId + 1⟩,
    ?_, rfl, ?_, ?_⟩
  · have hd : dbInsert s req.title req.genre false req.image_url =
        some (s.nextId,
          ⟨s.rows ++ [⟨s.nextId, some t, req.genre, false, req.image_url⟩],
            s.nextId + 1⟩) := by
      rw [ht]
      simp only [dbInsert]
      rw [if_pos hcond]
    unfold add_movie
    rw [hd]
  · rw [List.filter_append]
    have h1 : s.rows.filter (fun r => r.id == s.nextId) = [] := by
      rw [List.filter_eq_nil_iff]
      intro r hr
      simp only [beq_iff_eq]
      exact Nat.ne_of_lt (hinv.1 r hr)
    rw [h1]
    simp
  · intro r hr hid
    rcases List.mem_append.1 hr with hm | hm
    · exact absurd hid (Nat.ne_of_lt (hinv.1 r hm))
    · simp only [List.mem_singleton] at hm
      subst hm
      rfl

/-- Witness for `add_movie_forces_status_false`: a request that even
supplies `status: true` still creates the row with status=false. -/
theorem add_movie_forces_status_false_witness :
    ((⟨some "Dunkirk", some "War", some true, none⟩ : AddReq).title = some "Dunkirk" ∧
     "Dunkirk".length ≤ 200 ∧
     fitsVarchar 100 (⟨some "Dunkirk", some "War", some true, none⟩ : AddReq).genre = true ∧
     fitsVarchar 500 (⟨some "Dunkirk", some "War", some true, none⟩ : AddReq).image_url = true) ∧
    ∃ i s',
      add_movie ⟨some "Dunkirk", some "War", some true, none⟩ dbSeeded = (.created i, s') ∧
      (list_movies s').1 = .listOk s'.rows ∧
      (s'.rows.filter (fun r => r.id == i)).length = 1 ∧
      ∀ r ∈ s'.rows, r.id = i → r.status = false :=
  ⟨⟨rfl, by decide, by decide, rfl⟩,
    add_movie_forces_status_false dbSeeded ⟨some "Dunkirk", some "War", some true, none⟩
      "Dunkirk" reachable_dbSeeded rfl (by decide) (by decide) rfl⟩

/-- C4: from every reachable state, a successful add-movie returns an id
that is distinct from the id of every row existing before the insert. -/
theorem add_movie_id_fresh (s : DB) (req : AddReq) (i : Nat)
    (hs : Reachable s) (hi : (add_movie req s).1 = .created i) :
    ∀ r ∈ s.rows, r.id ≠ i := by
  have hinv := reachable_inv hs
  unfold add_movie at hi
  cases hd : dbInsert s req.title req.genre false req.image_url with
  | none =>
    rw [hd] at hi
    cases hi
  | some p =>
    rw [hd] at hi
    obtain ⟨pk, s2⟩ := p
    have hpi : pk = i := by injection hi
    have hp := dbInsert_some hd
    have hpk : pk = s.nextId := congrArg Prod.fst hp
    intro r hr
    rw [← hpi, hpk]
    exact Nat.ne_of_lt (hinv.1 r hr)

/-- Witness for `add_movie_id_fresh`: adding to the seeded table returns
id 5, which no seeded row carries. -/
theorem add_movie_id_fresh_witness :
    (add_movie ⟨some "Dunkirk", some "War", none, none⟩ dbSeeded).1 = .created 5 ∧
    ∀ r ∈ dbSeeded.rows, r.id ≠ 5 :=
  ⟨by decide, add_movie_id_fresh dbSeeded ⟨some "Dunkirk", some "War", none, none⟩ 5
    reachable_dbSeeded (by decide)⟩

lemma mark_watched_success {s : DB} {movie_id : Nat} (r : MovieRow)
    (hr : r ∈ s.rows) (hid : r.id = movie_id) :
    (mark_watched movie_id s).1 = .updated := by
  unfold mark_watched
  simp only []
  rw [if_pos (rowcount_pos r hr hid)]

lemma mem_mark_watched {s : DB} {movie_id : Nat} (r : MovieRow)
    (hr : r ∈ s.rows) (hid : r.id = movie_id) :
    ({ r with status := true } : MovieRow) ∈ (mark_watched movie_id s).2.rows := by
  unfold mark_watched
  simp only []
  refine List.mem_map.2 ⟨r, hr, ?_⟩
  rw [if_pos (by simp [hid])]

/-- C5: for every id with no matching row, mark-watched returns the
not-found error with status code 404 and leaves every row of the table
unchanged (the whole state is returned as it was). -/
theorem mark_watched_not_found (s : DB) (movie_id : Nat)
    (h : ∀ r ∈ s.rows, r.id ≠ movie_id) :
    mark_watched movie_id s = (.notFound, s) ∧ Resp.notFound.code = 404 := by
  refine ⟨?_, rfl⟩
  have h2 : s.rows.map
      (fun r => if r.id == movie_id then { r with status := true } else r) = s.rows := by
    apply map_id_of_mem
    intro r hr
    rw [if_neg (by simp [h r hr])]
  unfold mark_watched
  simp only []
  rw [if_neg (by simp [rowcount_zero h]), h2]

/-- Witness for `mark_watched_not_found` at id 99999 on the seeded
table. -/
theorem mark_watched_not_found_witness :
    (∀ r ∈ dbSeeded.rows, r.id ≠ 99999) ∧
    (mark_watched 99999 dbSeeded = (.notFound, dbSeeded) ∧ Resp.notFound.code = 404) :=
  ⟨by decide, mark_watched_not_found dbSeeded 99999 (by decide)⟩

/-- C6: mark-watched is idempotent in its success reporting: for every
existing id, the first call reports success, and calling mark-watched
again on the already-watched movie again reports success (the row still
matches, so the true-to-true update still counts it). -/
theorem mark_watched_idempotent (s : DB) (movie_id : Nat) (r : MovieRow)
    (hr : r ∈ s.rows) (hid : r.id = movie_id) :
    (mark_watched movie_id s).1 = .updated ∧
    (mark_watched movie_id (mark_watched movie_id s).2).1 = .updated := by
  refine ⟨mark_watched_success r hr hid, ?_⟩
  exact mark_watched_success { r with status := true } (mem_mark_watched r hr hid) hid

/-- Witness for `mark_watched_idempotent` at id 1 on the seeded table. -/
theorem mark_watched_idempotent_witness :
    rowInception ∈ dbSeeded.rows ∧ rowInception.id = 1 ∧
    ((mark_watched 1 dbSeeded).1 = .updated ∧
     (mark_watched 1 (mark_watched 1 dbSeeded).2).1 = .updated) :=
  ⟨by decide, rfl, mark_watched_idempotent dbSeeded 1 rowInception (by decide) rfl⟩

/-- C7: for every existing id (from a reachable state, so ids are
unique), delete answers with the echoed id and 200, removes exactly that
row (the row is gone, every other row is kept, nothing new appears), a
subsequent list no longer contains it, and a second delete of the same
id returns the not-found error with 404. -/
theorem delete_movie_spec (s : DB) (movie_id : Nat) (r : MovieRow)
    (hs : Reachable s) (hr : r ∈ s.rows) (hid : r.id = movie_id) :
    ∃ s', delete_movie movie_id s = (.deleted movie_id, s') ∧
      (Resp.deleted movie_id).code = 200 ∧
      r ∉ s'.rows ∧
      (∀ x ∈ s.rows, x ≠ r → x ∈ s'.rows) ∧
      (∀ x ∈ s'.rows, x ∈ s.rows) ∧
      (list_movies s').1 = .listOk s'.rows ∧
      (∀ x ∈ s'.rows, x.id ≠ movie_id) ∧
      delete_movie movie_id s' = (.notFound, s') ∧ Resp.notFound.code = 404 := by
  have hinv := reachable_inv hs
  refine ⟨⟨s.rows.filter (fun x => x.id != movie_id), s.nextId⟩, ?_, rfl, ?_, ?_, ?_,
    rfl, ?_, ?_, rfl⟩
  · unfold delete_movie
    simp only []
    rw [if_pos (rowcount_pos r hr hid)]
  · intro hmem
    have := (List.mem_filter.1 hmem).2
    simp [hid] at this
  · intro x hx hne
    refine List.mem_filter.2 ⟨hx, ?_⟩
    simp only [bne_iff_ne, ne_eq, decide_eq_true_eq]
    intro hxid
    exact hne (id_injective hinv hx hr (hxid.trans hid.symm))
  · intro x hx
    exact List.mem_of_mem_filter hx
  · intro x hx
    have := (List.mem_filter.1 hx).2
    simpa using this
  · have hall : ∀ x ∈ s.rows.filter (fun x => x.id != movie_id), x.id ≠ movie_id := by
      intro x hx
      have := (List.mem_filter.1 hx).2
      simpa using this
    have hcount :=
      @rowcount_zero ⟨s.rows.filter (fun x => x.id != movie_id), s.nextId⟩ movie_id hall
    unfold delete_movie
    simp only []
    rw [if_neg (by simp [hcount])]
    have : (s.rows.filter (fun x => x.id != movie_id)).filter
        (fun x => x.id != movie_id) = s.rows.filter (fun x => x.id != movie_id) :=
      List.filter_eq_self.2 (fun x hx => by simpa using hall x hx)
    rw [this]

/-- Witness for `delete_movie_spec` at id 1 on the seeded table. -/
theorem delete_movie_spec_witness :
    rowInception ∈ dbSeeded.rows ∧ rowInception.id = 1 ∧
    ∃ s', delete_movie 1 dbSeeded = (.deleted 1, s') ∧
      (Resp.deleted 1).code = 200 ∧
      rowInception ∉ s'.rows ∧
      (∀ x ∈ dbSeeded.rows, x ≠ rowInception → x ∈ s'.rows) ∧
      (∀ x ∈ s'.rows, x ∈ dbSeeded.rows) ∧
      (list_movies s').1 = .listOk s'.rows ∧
      (∀ x ∈ s'.rows, x.id ≠ 1) ∧
      delete_movie 1 s' = (.notFound, s') ∧ Resp.notFound.code = 404 :=
  ⟨by decide, rfl, delete_movie_spec dbSeeded 1 rowInception reachable_dbSeeded (by decide) rfl⟩

/-- C8: for every existing id (from a reachable state), mark-watched
changes only that row's status to true: the updated row keeps its id,
title, genre and image_url, every row with a different id is carried
over unchanged in both directions, and the autoincrement sequence is
untouched. -/
theorem mark_watched_frame (s : DB) (movie_id : Nat) (r : MovieRow)
    (hs : Reachable s) (hr : r ∈ s.rows) (hid : r.id = movie_id) :
    (mark_watched movie_id s).1 = .updated ∧
    (mark_watched movie_id s).2.nextId = s.nextId ∧
    ({ r with status := true } : MovieRow) ∈ (mark_watched movie_id s).2.rows ∧
    (∀ x ∈ s.rows, x.id ≠ movie_id → x ∈ (mark_watched movie_id s).2.rows) ∧
    (∀ x ∈ (mark_watched movie_id s).2.rows, x.id ≠ movie_id → x ∈ s.rows) ∧
    (∀ x ∈ (mark_watched movie_id s).2.rows, x.id = movie_id →
      x = { r with status := true }) := by
  have hinv := reachable_inv hs
  refine ⟨mark_watched_success r hr hid, rfl, mem_mark_watched r hr hid, ?_, ?_, ?_⟩
  · intro x hx hxid
    refine List.mem_map.2 ⟨x, hx, ?_⟩
    rw [if_neg (by simp [hxid])]
  · intro x hx hxid
    obtain ⟨x0, hx0, hmap⟩ := List.mem_map.1 hx
    by_cases hc : x0.id = movie_id
    · rw [if_pos (by simp [hc])] at hmap
      subst hmap
      exact absurd hc hxid
    · rw [if_neg (by simp [hc])] at hmap
      subst hmap
      exact hx0
  · intro x hx hxid
    obtain ⟨x0, hx0, hmap⟩ := List.mem_map.1 hx
    by_cases hc : x0.id = movie_id
    · rw [if_pos (by simp [hc])] at hmap
      subst hmap
      have : x0 = r := id_injective hinv hx0 hr (hc.trans hid.symm)
      rw [this]
    · rw [if_neg (by simp [hc])] at hmap
      subst hmap
      exact absurd hxid hc

/-- Witness for `mark_watched_frame` at id 1 on the seeded table. -/
theorem mark_watched_frame_witness :
    rowInception ∈ dbSeeded.rows ∧ rowInception.id = 1 ∧
    ((mark_watched 1 dbSeeded).1 = .updated ∧
     (mark_watched 1 dbSeeded).2.nextId = dbSeeded.nextId ∧
     ({ rowInception with status := true } : MovieRow) ∈ (mark_watched 1 dbSeeded).2.rows ∧
     (∀ x ∈ dbSeeded.rows, x.id ≠ 1 → x ∈ (mark_watched 1 dbSeeded).2.rows) ∧
     (∀ x ∈ (mark_watched 1 dbSeeded).2.rows, x.id ≠ 1 → x ∈ dbSeeded.rows) ∧
     (∀ x ∈ (mark_watched 1 dbSeeded).2.rows, x.id = 1 →
       x = { rowInception with status := true })) :=
  ⟨by decide, rfl, mark_watched_frame dbSeeded 1 rowInception reachable_dbSeeded (by decide) rfl⟩

/-- C9: from every reachable state and for every operation of the API
(list, add, mark-watched, delete), no row's status transitions from true
to false: any surviving row that carries the id of a previously watched
row is still watched. -/
theorem status_never_reset (s : DB) (op : Op) (r r' : MovieRow)
    (hs : Reachable s) (hr : r ∈ s.rows) (hst : r.status = true)
    (hr' : r' ∈ (applyOp op s).2.rows) (hid : r'.id = r.id) :
    r'.status = true := by
  have hinv := reachable_inv hs
  cases op with
  | list =>
    have : r' = r := id_injective hinv hr' hr hid
    rw [this, hst]
  | add req =>
    cases hd : dbInsert s req.title req.genre false req.image_url with
    | none =>
      have hsnd : (applyOp (.add req) s).2 = s := by
        show (add_movie req s).2 = s
        unfold add_movie
        rw [hd]
      rw [hsnd] at hr'
      have : r' = r := id_injective hinv hr' hr hid
      rw [this, hst]
    | some p =>
      obtain ⟨pk, s2⟩ := p
      have hp := dbInsert_some hd
      have hs2 : s2 =
          ⟨s.rows ++ [⟨s.nextId, req.title, req.genre, false, req.image_url⟩],
            s.nextId + 1⟩ := congrArg Prod.snd hp
      have hsnd : (applyOp (.add req) s).2 = s2 := by
        show (add_movie req s).2 = s2
        unfold add_movie
        rw [hd]
      rw [hsnd, hs2] at hr'
      rcases List.mem_append.1 hr' with hm | hm
      · have : r' = r := id_injective hinv hm hr hid
        rw [this, hst]
      · simp only [List.mem_singleton] at hm
        subst hm
        exact absurd hid.symm (Nat.ne_of_lt (hinv.1 r hr))
  | put m =>
    obtain ⟨x0, hx0, hmap⟩ := List.mem_map.1 hr'
    by_cases hc : x0.id = m
    · rw [if_pos (by simp [hc])] at hmap
      subst hmap
      rfl
    · rw [if_neg (by simp [hc])] at hmap
      have hx : x0 = r := id_injective hinv hx0 hr (by rw [hmap]; exact hid)
      rw [← hmap, hx, hst]
  | del m =>
    have : r' ∈ s.rows := List.mem_of_mem_filter hr'
    have heq : r' = r := id_injective hinv this hr hid
    rw [heq, hst]

/-- Witness for `status_never_reset`: after marking "Inception" watched,
deleting movie 2 leaves the "Inception" row watched. -/
theorem status_never_reset_witness :
    rowInceptionW ∈ dbW.rows ∧ rowInceptionW.status = true ∧
    rowInceptionW ∈ (applyOp (.del 2) dbW).2.rows ∧
    rowInceptionW.status = true :=
  ⟨by decide, rfl, by decide,
    status_never_reset dbW (.del 2) rowInceptionW rowInceptionW reachable_dbW
      (by decide) rfl (by decide) rfl⟩
